import Mathlib

/-!
Shallow embedding of the imgix-rs URL builder and srcset generation engine.

The definitions below are translated from the repository sources:
src/imgix/url/mod.rs (the Url record, its validating builders, join and
join_params), src/imgix/validate/mod.rs, src/imgix/util/errors.rs,
src/imgix/constants.rs, and src/imgix/source_set/mod.rs (Config, the action
classifier and the candidate generators).  Panics in the source (failed
validation, failed asserts, unwraps of absent fields, unimplemented arms)
are modelled by Option-returning functions: none stands for a fatal abort
that produces no partial output.  The repository contains a second, older
copy of the Url code in src/imgix/lib.rs; the copy embedded here is the one
in src/imgix/url/mod.rs, which is the copy the srcset engine imports and
the one with the four-case join rendering.
-/

namespace Imgix

/-- Scheme component of an imgix URL, from src/imgix/url/mod.rs: Https or Http. -/
inductive Scheme where
  | Https
  | Http
deriving DecidableEq

/-- Rendering of a Scheme as its lowercase name, from the Display impl in
src/imgix/url/mod.rs. -/
def Scheme.display : Scheme → String
| .Https => "https"
| .Http => "http"

/-- Error kinds from src/imgix/util/errors.rs.  The Io variant wraps a
platform input-output error that never arises in the embedded core and is
omitted from the model. -/
inductive Error where
  | DomainError (msg : String)
  | JoinError (msg : String)
  | ParamError (msg : String)
  | PathError (msg : String)
deriving DecidableEq

/-- Domain validator from src/imgix/validate/mod.rs: rejects the empty string. -/
def validate.domain (d : String) : Except Error Unit :=
if d.isEmpty then .error (.DomainError "domain cannot be empty") else .ok ()

/-- Path validator from src/imgix/validate/mod.rs: rejects the empty string. -/
def validate.path (p : String) : Except Error Unit :=
if p.isEmpty then .error (.PathError "path cannot be empty") else .ok ()

/-- Parameter-pair validator from src/imgix/validate/mod.rs: rejects an empty
key and rejects an empty value. -/
def validate.param_pair (k v : String) : Except Error Unit :=
if k.isEmpty then .error (.ParamError "key cannot be empty")
else if v.isEmpty then .error (.ParamError "value cannot be empty")
else .ok ()

/-- The Url record from src/imgix/url/mod.rs: scheme, domain, lib string,
optional path, ordered key-value parameter list, optional signing token. -/
structure Url where
  scheme : Scheme
  domain : String
  lib : String
  path : Option String
  params : List (String × String)
  token : Option String
deriving DecidableEq

/-- The Default impl for Url in src/imgix/url/mod.rs: Https scheme, empty
domain and lib, no path, no params, no token. -/
def Url.default : Url :=
{ scheme := .Https, domain := "", lib := "", path := none, params := [], token := none }

/-- Url::new from src/imgix/url/mod.rs: validates the domain and otherwise
starts from the default record; an empty domain panics (none). -/
def Url.new (domain : String) : Option Url :=
match validate.domain domain with
| .ok _ => some { Url.default with domain := domain }
| .error _ => none

/-- Url::path from src/imgix/url/mod.rs (named set_path here because `path`
is the field projection): validates then records the path; an empty path
panics (none). -/
def Url.set_path (u : Url) (p : String) : Option Url :=
match validate.path p with
| .ok _ => some { u with path := some p }
| .error _ => none

/-- Url::params from src/imgix/url/mod.rs (named set_params here because
`params` is the field projection): validates each pair in order and pushes
it onto the parameter list; the first empty key or value panics (none). -/
def Url.set_params (u : Url) (p : List (String × String)) : Option Url :=
match p with
| [] => some u
| kv :: rest =>
  match validate.param_pair kv.1 kv.2 with
  | .ok _ => Url.set_params { u with params := u.params ++ [kv] } rest
  | .error _ => none

/-- Modelled from the spec: the read accessor get_params of section 4.2.  The
snapshot of src/imgix/url/mod.rs does not carry its body although
src/imgix/source_set/mod.rs calls it; it returns the ordered parameter list. -/
def Url.get_params (u : Url) : List (String × String) := u.params

/-- Modelled from the spec: the read accessor has_params of section 4.2, true
exactly when the parameter list is non-empty (the spec's candidate formats
branch on whether the base url already has params). -/
def Url.has_params (u : Url) : Bool := !u.params.isEmpty

/-- Url::join_params from src/imgix/url/mod.rs: concatenates key=value pairs
with one ampersand after every non-final pair and returns the empty string
for an empty list; the asserts on empty keys and values are modelled as
failure (none). -/
def Url.join_params : List (String × String) → Option String
| [] => some ""
| (k, v) :: rest =>
  if k.isEmpty || v.isEmpty then none
  else (Url.join_params rest).map
    (fun r => k ++ "=" ++ v ++ (if rest.isEmpty then "" else "&") ++ r)

/-- Url::join from src/imgix/url/mod.rs: renders scheme://domain/path with
the lib and query portions appended in four cases on the emptiness of lib
and of the query string; an absent path panics (none) with a JoinError, and
a failing join_params propagates. -/
def Url.join (u : Url) : Option String :=
match u.path with
| some path =>
  (Url.join_params u.params).map (fun query =>
    match u.lib.isEmpty, query.isEmpty with
    | false, false =>
      u.scheme.display ++ "://" ++ u.domain ++ "/" ++ path ++ "?" ++ u.lib ++ "&" ++ query
    | false, true =>
      u.scheme.display ++ "://" ++ u.domain ++ "/" ++ path ++ "?" ++ u.lib
    | true, false =>
      u.scheme.display ++ "://" ++ u.domain ++ "/" ++ path ++ "?" ++ query
    | true, true =>
      u.scheme.display ++ "://" ++ u.domain ++ "/" ++ path)
| none => none

/-- SRCSET_TARGET_WIDTHS from src/imgix/constants.rs: the 31 default viewport
target widths. -/
def SRCSET_TARGET_WIDTHS : List Nat :=
[100, 116, 135, 156, 181, 210, 244, 283, 328, 380, 441, 512, 594, 689, 799,
 927, 1075, 1247, 1446, 1678, 1946, 2257, 2619, 3038, 3524, 4087, 4741, 5500,
 6380, 7401, 8192]

/-- SRCSET_TARGET_DPR_RATIOS from src/imgix/constants.rs (a 5-element array
in the source). -/
def SRCSET_TARGET_DPR_RATIOS : List Nat := [1, 2, 3, 4, 5]

/-- SRCSET_DPR_QUALITIES from src/imgix/constants.rs (a 5-element array in
the source). -/
def SRCSET_DPR_QUALITIES : List Nat := [75, 50, 35, 23, 20]

/-- The Action sum from src/imgix/source_set/mod.rs. -/
inductive Action where
  | ArtDirection
  | PixelDensity
  | Viewport
deriving DecidableEq

/-- The Config record from src/imgix/source_set/mod.rs: optional overrides
gathered by the SourceSet builder.  In the source, ratios points at a
5-element u32 array and targets and qualities are u32 slices; lists of Nat
model them here. -/
structure Config where
  scheme : Option Scheme
  domain : Option String
  path : Option String
  params : Option (List (String × String))
  lib : Option String
  token : Option String
  targets : Option (List Nat)
  ratios : Option (List Nat)
  qualities : Option (List Nat)
  use_variable_quality : Option Bool
deriving DecidableEq

/-- The Default impl for Config in src/imgix/source_set/mod.rs: every field
absent. -/
def Config.default : Config :=
{ scheme := none, domain := none, path := none, params := none, lib := none,
  token := none, targets := none, ratios := none, qualities := none,
  use_variable_quality := none }

/-- Config::set_scheme from src/imgix/source_set/mod.rs. -/
def Config.set_scheme (c : Config) (s : Scheme) : Config := { c with scheme := some s }

/-- Config::set_domain from src/imgix/source_set/mod.rs: stores the string
without validation. -/
def Config.set_domain (c : Config) (d : String) : Config := { c with domain := some d }

/-- Config::set_path from src/imgix/source_set/mod.rs: stores the string
without validation. -/
def Config.set_path (c : Config) (p : String) : Config := { c with path := some p }

/-- Config::set_params from src/imgix/source_set/mod.rs: stores the list
without validation. -/
def Config.set_params (c : Config) (p : List (String × String)) : Config :=
{ c with params := some p }

/-- Config::set_ratios from src/imgix/source_set/mod.rs. -/
def Config.set_ratios (c : Config) (r : List Nat) : Config := { c with ratios := some r }

/-- Config::set_targets from src/imgix/source_set/mod.rs: stores the list
without validation (empty lists included). -/
def Config.set_targets (c : Config) (t : List Nat) : Config := { c with targets := some t }

/-- Config::set_qualities from src/imgix/source_set/mod.rs. -/
def Config.set_qualities (c : Config) (q : List Nat) : Config := { c with qualities := some q }

/-- Config::set_use_variable_quality from src/imgix/source_set/mod.rs. -/
def Config.set_use_variable_quality (c : Config) (b : Bool) : Config :=
{ c with use_variable_quality := some b }

/-- Config::get_ratios from src/imgix/source_set/mod.rs: the stored ratios or
the default SRCSET_TARGET_DPR_RATIOS. -/
def Config.get_ratios (c : Config) : List Nat := c.ratios.getD SRCSET_TARGET_DPR_RATIOS

/-- Config::get_targets from src/imgix/source_set/mod.rs: the stored targets
or the default SRCSET_TARGET_WIDTHS. -/
def Config.get_targets (c : Config) : List Nat := c.targets.getD SRCSET_TARGET_WIDTHS

/-- Config::get_qualities from src/imgix/source_set/mod.rs: the stored
qualities or the default SRCSET_DPR_QUALITIES. -/
def Config.get_qualities (c : Config) : List Nat := c.qualities.getD SRCSET_DPR_QUALITIES

/-- Config::get_use_variable_quality from src/imgix/source_set/mod.rs: the
stored flag or true. -/
def Config.get_use_variable_quality (c : Config) : Bool := c.use_variable_quality.getD true

/-- Config::to_url from src/imgix/source_set/mod.rs: panics (none) when
domain or path is absent; otherwise builds
Url::new(domain).path(path).params(params) with params defaulting to the
empty list; the panics inside those validating builders (empty domain, empty
path, empty key or value) propagate. -/
def Config.to_url (c : Config) : Option Url :=
match c.domain, c.path with
| some d, some p =>
  match Url.new d with
  | none => none
  | some u =>
    match u.set_path p with
    | none => none
    | some u2 => u2.set_params (c.params.getD [])
| _, _ => none

/-- SourceSet::infer_action from src/imgix/source_set/mod.rs: a single pass
over the url's parameters sets the has_width, has_height and
has_aspect_ratio flags; the action is PixelDensity when has_width holds or
both has_aspect_ratio and has_height hold, and Viewport otherwise. -/
def infer_action (url : Url) : Action :=
let flags := url.get_params.foldl
  (fun (f : Bool × Bool × Bool) param =>
    (f.1 || param.1 == "w", f.2.1 || param.1 == "h", f.2.2 || param.1 == "ar"))
  (false, false, false)
if flags.1 || (flags.2.2 && flags.2.1) then .PixelDensity else .Viewport

/-- The descriptor and parameter key chosen per action in candidate and
candidate_and (src/imgix/source_set/mod.rs); the ArtDirection arm is
unimplemented and panics (none). -/
def descriptor_key : Action → Option (String × String)
| .Viewport => some ("w", "w")
| .PixelDensity => some ("x", "dpr")
| .ArtDirection => none

/-- candidate from src/imgix/source_set/mod.rs: the joined base url, then the
key=value segment introduced by an ampersand when the url already has params
and by a question mark otherwise, a space, the value and the descriptor. -/
def candidate (url : Url) (value : String) (action : Action) : Option String :=
match descriptor_key action with
| none => none
| some dk =>
  match url.join with
  | none => none
  | some base =>
    let param := if url.has_params then "&" ++ dk.2 ++ "=" ++ value else "?" ++ dk.2 ++ "=" ++ value
    some (base ++ param ++ " " ++ value ++ dk.1)

/-- candidate_and from src/imgix/source_set/mod.rs: like candidate but with
the extra segment `more` spliced in between the base url and the key=value
segment. -/
def candidate_and (url : Url) (value : String) (action : Action) (more : String) : Option String :=
match descriptor_key action with
| none => none
| some dk =>
  match url.join with
  | none => none
  | some base =>
    let param := if url.has_params then "&" ++ dk.2 ++ "=" ++ value else "?" ++ dk.2 ++ "=" ++ value
    some (base ++ more ++ param ++ " " ++ value ++ dk.1)

/-- create_srcset from src/imgix/source_set/mod.rs: one candidate per target,
in order. -/
def create_srcset (url : Url) (targets : List Nat) (action : Action) : Option (List String) :=
targets.mapM (fun t => candidate url (toString t) action)

/-- create_variable_quality_set from src/imgix/source_set/mod.rs: one
candidate per pair of the zipped ratio and quality lists, passing the extra
segment "&q=" followed by the quality. -/
def create_variable_quality_set (url : Url) (ratios : List Nat) (action : Action)
    (qualities : List Nat) : Option (List String) :=
(ratios.zip qualities).mapM
  (fun rq => candidate_and url (toString rq.1) action ("&q=" ++ toString rq.2))

/-- SourceSet::build_srcset from src/imgix/source_set/mod.rs (it only reads
the config): materialise the url, infer the action and dispatch; the
ArtDirection arm is unimplemented (none). -/
def Config.build_srcset (c : Config) : Option (List String) :=
match c.to_url with
| none => none
| some url =>
  match infer_action url with
  | .PixelDensity =>
    if c.get_use_variable_quality then
      create_variable_quality_set url c.get_ratios .PixelDensity c.get_qualities
    else
      create_srcset url c.get_ratios .PixelDensity
  | .Viewport => create_srcset url c.get_targets .Viewport
  | .ArtDirection => none

/-- SourceSet::srcset_attr from src/imgix/source_set/mod.rs: the candidate
list joined with a comma followed by a newline. -/
def Config.srcset_attr (c : Config) : Option String :=
(c.build_srcset).map (String.intercalate ",\n")

/-- The params invariant of the Url data model (spec section 3): every key
and every value is non-empty.  The validating builders establish it. -/
def params_wf (p : List (String × String)) : Prop :=
∀ kv ∈ p, kv.1 ≠ "" ∧ kv.2 ≠ ""

instance (p : List (String × String)) : Decidable (params_wf p) :=
inferInstanceAs (Decidable (∀ kv ∈ p, kv.1 ≠ "" ∧ kv.2 ≠ ""))

/-- Follows the spec's words on join_params (section 4.2): key=value pairs
concatenated with ampersand separators in insertion order, the empty string
for an empty list. -/
def query_string : List (String × String) → String
| [] => ""
| (k, v) :: rest =>
  k ++ "=" ++ v ++ (if rest.isEmpty then "" else "&") ++ query_string rest

/-- Follows the spec's words (the four-row rendering table of section 4.2):
scheme://domain/path followed by the lib and query portions, the four
degenerate cases trimmed on the emptiness of lib and of params. -/
def spec_join_render (u : Url) (p : String) : String :=
let base := u.scheme.display ++ "://" ++ u.domain ++ "/" ++ p
let query := query_string u.params
if u.lib ≠ "" then
  if u.params ≠ [] then base ++ "?" ++ u.lib ++ "&" ++ query
  else base ++ "?" ++ u.lib
else
  if u.params ≠ [] then base ++ "?" ++ query
  else base

/-- The url record that Config::to_url builds when domain and path are both
present and valid: the default url with that domain, that path and the
config's params. -/
def to_url_result (d p : String) (ps : List (String × String)) : Url :=
{ Url.default with domain := d, path := some p, params := ps }

/-- A concrete config: domain test.imgix.net, path image.png, params w=640,
everything else at its default. -/
def cfg_w640 : Config :=
((Config.default.set_domain "test.imgix.net").set_path "image.png").set_params [("w", "640")]

/-- The url that cfg_w640.to_url materialises. -/
def url_w640 : Url :=
{ scheme := .Https, domain := "test.imgix.net", lib := "", path := some "image.png",
  params := [("w", "640")], token := none }

/-- A concrete url with one parameter, used to instantiate universally
quantified theorems. -/
def url_w320 : Url :=
{ scheme := .Https, domain := "test.imgix.net", lib := "", path := some "image.png",
  params := [("w", "320")], token := none }

/-- A concrete url with a path and no parameters. -/
def url_no_params : Url :=
{ scheme := .Https, domain := "test.imgix.net", lib := "", path := some "image.png",
  params := [], token := none }

/-- A concrete url whose single parameter value ends with an ampersand. -/
def url_amp_value : Url :=
{ scheme := .Https, domain := "d", lib := "", path := some "p",
  params := [("a", "b&")], token := none }

/-- A concrete config whose scheme override is Http. -/
def cfg_http : Config := cfg_w640.set_scheme .Http

/-- A concrete config with a path but no domain. -/
def cfg_no_domain : Config := Config.default.set_path "p"

/-- A concrete config built through the builder with an empty targets list. -/
def cfg_empty_targets : Config :=
((Config.default.set_domain "test.imgix.net").set_path "image.png").set_targets []

set_option maxRecDepth 100000

theorem isEmpty_eq_false_of_ne (s : String) (h : s ≠ "") : s.isEmpty = false := by
cases he : s.isEmpty
· rfl
· exact absurd ((String.isEmpty_iff s).mp he) h

theorem data_ne_nil_of_ne (s : String) (h : s ≠ "") : s.data ≠ [] := by
intro hd
exact h (String.ext_iff.mpr (by simp [hd]))

theorem empty_isEmpty : ("" : String).isEmpty = true := by decide

theorem ne_empty_of_isEmpty_false (s : String) (h : s.isEmpty = false) : s ≠ "" := by
intro he
rw [he, empty_isEmpty] at h
exact absurd h (by decide)

theorem join_params_eq_query_string (p : List (String × String)) (hwf : params_wf p) :
    Url.join_params p = some (query_string p) := by
induction p with
| nil => rfl
| cons kv rest ih =>
  obtain ⟨hk, hv⟩ := hwf kv (List.mem_cons_self kv rest)
  have hwf' : params_wf rest := fun x hx => hwf x (List.mem_cons_of_mem _ hx)
  obtain ⟨k, v⟩ := kv
  simp only [Url.join_params, query_string, isEmpty_eq_false_of_ne _ hk,
    isEmpty_eq_false_of_ne _ hv, Bool.or_self, ite_false, ih hwf', Option.map_some']
  simp

theorem query_string_ne_empty (k v : String) (rest : List (String × String)) :
    query_string ((k, v) :: rest) ≠ "" := by
intro h
have h2 := congrArg String.data h
rw [query_string] at h2
simp [String.data_append] at h2

theorem join_eq_spec_render (u : Url) (p : String) (hp : u.path = some p)
    (hwf : params_wf u.params) : u.join = some (spec_join_render u p) := by
have hq := join_params_eq_query_string u.params hwf
simp only [Url.join, spec_join_render, hp, hq, Option.map_some']
cases hps : u.params with
| nil =>
  cases hl : u.lib.isEmpty with
  | true =>
    have hl' : u.lib = "" := (String.isEmpty_iff u.lib).mp hl
    simp [query_string, hl', empty_isEmpty]
  | false =>
    have hl' : u.lib ≠ "" := ne_empty_of_isEmpty_false _ hl
    simp [query_string, hl', hl, empty_isEmpty]
| cons kv rest =>
  obtain ⟨k, v⟩ := kv
  have hqe : (query_string ((k, v) :: rest)).isEmpty = false :=
    isEmpty_eq_false_of_ne _ (query_string_ne_empty k v rest)
  have hqe' : query_string ((k, v) :: rest) ≠ "" := query_string_ne_empty k v rest
  cases hl : u.lib.isEmpty with
  | true =>
    have hl' : u.lib = "" := (String.isEmpty_iff u.lib).mp hl
    simp [hqe, hqe', hl', empty_isEmpty]
  | false =>
    have hl' : u.lib ≠ "" := ne_empty_of_isEmpty_false _ hl
    simp [hqe, hqe', hl', hl]

theorem infer_flags_foldl (l : List (String × String)) (a b c : Bool) :
    l.foldl (fun (f : Bool × Bool × Bool) param =>
      (f.1 || param.1 == "w", f.2.1 || param.1 == "h", f.2.2 || param.1 == "ar")) (a, b, c) =
    (a || l.any (fun kv => kv.1 == "w"), b || l.any (fun kv => kv.1 == "h"),
     c || l.any (fun kv => kv.1 == "ar")) := by
induction l generalizing a b c with
| nil => simp
| cons hd tl ih => simp [List.foldl_cons, List.any_cons, ih, Bool.or_assoc]

/-- C1: srcset_attr for the config with domain test.imgix.net, path
image.png, params w=640 and every other setting at its default (variable
quality on, ratios 1 to 5, qualities 75 50 35 23 20) returns exactly the
five variable-quality candidates separated by a comma followed by a
newline. -/
theorem srcset_attr_default_w640 :
    cfg_w640.srcset_attr =
      some ("https://test.imgix.net/image.png?w=640&q=75&dpr=1 1x,\nhttps://test.imgix.net/image.png?w=640&q=50&dpr=2 2x,\nhttps://test.imgix.net/image.png?w=640&q=35&dpr=3 3x,\nhttps://test.imgix.net/image.png?w=640&q=23&dpr=4 4x,\nhttps://test.imgix.net/image.png?w=640&q=20&dpr=5 5x") := by
decide

/-- C3: the inferred action is PixelDensity exactly when some key is w, or
some key is ar and some key is h; otherwise it is Viewport; ArtDirection is
never inferred. -/
theorem infer_action_classification (u : Url) :
    infer_action u =
      (if u.get_params.any (fun kv => kv.1 == "w") ||
          (u.get_params.any (fun kv => kv.1 == "ar") &&
           u.get_params.any (fun kv => kv.1 == "h"))
        then Action.PixelDensity else Action.Viewport) ∧
    infer_action u ≠ Action.ArtDirection := by
have h := infer_flags_foldl u.get_params false false false
constructor
· simp only [infer_action, h, Bool.false_or]
· simp only [infer_action, h, Bool.false_or]
  split <;> simp

/-- C6: for every Url satisfying the params invariant, join succeeds exactly
when the path field is set, and when the path is absent join fails fatally
producing no partial url. -/
theorem join_succeeds_iff_path (u : Url) (hwf : params_wf u.params) :
    (u.join.isSome ↔ u.path.isSome) ∧ (u.path = none → u.join = none) := by
constructor
· cases hpath : u.path with
  | none => simp [Url.join, hpath]
  | some p =>
    have hj := join_eq_spec_render u p hpath hwf
    simp [hj, hpath]
· intro h
  simp [Url.join, h]

theorem join_succeeds_iff_path_witness :
    (url_w320.join.isSome ↔ url_w320.path.isSome) ∧
    (url_w320.path = none → url_w320.join = none) :=
join_succeeds_iff_path url_w320 (by decide)

theorem set_params_some (u : Url) (ps : List (String × String)) (u' : Url)
    (h : u.set_params ps = some u') :
    params_wf ps ∧ u' = { u with params := u.params ++ ps } := by
induction ps generalizing u with
| nil =>
  simp only [Url.set_params, Option.some_inj] at h
  refine ⟨fun kv hkv => absurd hkv (List.not_mem_nil kv), ?_⟩
  cases u
  simp [← h]
| cons kv t ih =>
  simp only [Url.set_params, validate.param_pair] at h
  cases hk : kv.1.isEmpty with
  | true => rw [hk] at h; simp at h
  | false =>
    cases hv : kv.2.isEmpty with
    | true => rw [hk, hv] at h; simp at h
    | false =>
      rw [hk, hv] at h
      simp only [ite_false, Bool.false_eq_true] at h
      obtain ⟨hwt, hu⟩ := ih _ h
      refine ⟨?_, ?_⟩
      · intro x hx
        rcases List.mem_cons.mp hx with hx | hx
        · subst hx
          exact ⟨ne_empty_of_isEmpty_false _ hk, ne_empty_of_isEmpty_false _ hv⟩
        · exact hwt x hx
      · rw [hu]
        simp [List.append_assoc]

theorem set_params_of_wf (u : Url) (ps : List (String × String)) (hwf : params_wf ps) :
    u.set_params ps = some { u with params := u.params ++ ps } := by
induction ps generalizing u with
| nil =>
  cases u
  simp [Url.set_params]
| cons kv t ih =>
  obtain ⟨hk, hv⟩ := hwf kv (List.mem_cons_self kv t)
  have hwf' : params_wf t := fun x hx => hwf x (List.mem_cons_of_mem _ hx)
  simp only [Url.set_params, validate.param_pair, isEmpty_eq_false_of_ne _ hk,
    isEmpty_eq_false_of_ne _ hv, Bool.false_eq_true, ite_false]
  rw [ih _ hwf']
  simp [List.append_assoc]

theorem new_some (d : String) (u : Url) (h : Url.new d = some u) :
    d ≠ "" ∧ u = { Url.default with domain := d } := by
unfold Url.new validate.domain at h
cases hde : d.isEmpty with
| true => rw [hde] at h; simp at h
| false =>
  rw [hde] at h
  simp only [Bool.false_eq_true, ite_false, Option.some_inj] at h
  exact ⟨ne_empty_of_isEmpty_false _ hde, h.symm⟩

theorem set_path_some (u : Url) (p : String) (u' : Url) (h : u.set_path p = some u') :
    p ≠ "" ∧ u' = { u with path := some p } := by
unfold Url.set_path validate.path at h
cases hpe : p.isEmpty with
| true => rw [hpe] at h; simp at h
| false =>
  rw [hpe] at h
  simp only [Bool.false_eq_true, ite_false, Option.some_inj] at h
  exact ⟨ne_empty_of_isEmpty_false _ hpe, h.symm⟩

theorem to_url_some_shape (c : Config) (u : Url) (h : c.to_url = some u) :
    ∃ d p, c.domain = some d ∧ c.path = some p ∧ d ≠ "" ∧ p ≠ "" ∧
      params_wf (c.params.getD []) ∧ u = to_url_result d p (c.params.getD []) := by
unfold Config.to_url at h
cases hd : c.domain with
| none => rw [hd] at h; cases c.path <;> simp at h
| some d =>
  cases hp : c.path with
  | none => rw [hd, hp] at h; simp at h
  | some p =>
    rw [hd, hp] at h
    simp only at h
    cases hn : Url.new d with
    | none => rw [hn] at h; simp at h
    | some u1 =>
      rw [hn] at h
      simp only at h
      cases hsp : u1.set_path p with
      | none => rw [hsp] at h; simp at h
      | some u2 =>
        rw [hsp] at h
        simp only at h
        obtain ⟨hdne, hu1e⟩ := new_some d u1 hn
        obtain ⟨hpne, hu2e⟩ := set_path_some u1 p u2 hsp
        obtain ⟨hwf, hue⟩ := set_params_some _ _ _ h
        refine ⟨d, p, rfl, rfl, hdne, hpne, hwf, ?_⟩
        rw [hue, hu2e, hu1e]
        simp [Url.default, to_url_result]

theorem to_url_of_valid (c : Config) (d p : String) (hd : c.domain = some d)
    (hp : c.path = some p) (hdne : d ≠ "") (hpne : p ≠ "")
    (hwf : params_wf (c.params.getD [])) :
    c.to_url = some (to_url_result d p (c.params.getD [])) := by
unfold Config.to_url
rw [hd, hp]
simp only [Url.new, validate.domain, isEmpty_eq_false_of_ne _ hdne, Bool.false_eq_true,
  ite_false, Url.set_path, validate.path, isEmpty_eq_false_of_ne _ hpne]
rw [set_params_of_wf _ _ hwf]
simp [Url.default, to_url_result]

/-- C7 counterexample: a config whose domain and path fields are both
present (domain stored as the empty string through the builder) on which
to_url nevertheless fails, refuting that to_url returns a URL whenever both
fields are present. -/
theorem to_url_empty_domain_cex :
    ((Config.default.set_domain "").set_path "p").domain = some "" ∧
    ((Config.default.set_domain "").set_path "p").path = some "p" ∧
    ((Config.default.set_domain "").set_path "p").to_url = none := by
decide

/-- C7 amended: to_url fails fatally when domain or path is absent (and then
srcset_attr fails before emitting any candidate), and returns the URL built
from the config's domain, path and params when both are present, both
non-empty, and every param key and value is non-empty. -/
theorem to_url_presence (c : Config) :
    ((c.domain = none ∨ c.path = none) → c.to_url = none ∧ c.srcset_attr = none) ∧
    (∀ d p, c.domain = some d → c.path = some p → d ≠ "" → p ≠ "" →
      params_wf (c.params.getD []) →
      c.to_url = some (to_url_result d p (c.params.getD []))) := by
constructor
· intro h
  have hnone : c.to_url = none := by
    unfold Config.to_url
    rcases h with h | h
    · rw [h]
    · rw [h]
      cases c.domain <;> rfl
  exact ⟨hnone, by simp [Config.srcset_attr, Config.build_srcset, hnone]⟩
· intro d p hd hp hdne hpne hwf
  exact to_url_of_valid c d p hd hp hdne hpne hwf

theorem to_url_presence_witness :
    cfg_no_domain.to_url = none ∧ cfg_no_domain.srcset_attr = none :=
(to_url_presence cfg_no_domain).1 (Or.inl rfl)

/-- C9 counterexample: the builder stores an empty targets list unchecked
and srcset_attr silently returns the empty string for it, refuting that an
empty targets list is fatally rejected. -/
theorem empty_targets_silent_srcset_cex :
    cfg_empty_targets.targets = some [] ∧ cfg_empty_targets.srcset_attr = some "" := by
decide

/-- C9 amended: set_targets stores an empty list without any validation, so
viewport srcset generation does run with an empty target list and
srcset_attr silently returns the empty string. -/
theorem empty_targets_accepted (c : Config) (u : Url)
    (h : (c.set_targets []).to_url = some u) (ha : infer_action u = .Viewport) :
    (c.set_targets []).get_targets = [] ∧ (c.set_targets []).srcset_attr = some "" := by
constructor
· simp [Config.set_targets, Config.get_targets]
· unfold Config.srcset_attr Config.build_srcset
  rw [h]
  simp only [Option.some_bind, ha, Config.get_targets, Config.set_targets, Option.getD_some,
    create_srcset, Option.map_eq_some']
  exact ⟨[], rfl, rfl⟩

theorem empty_targets_accepted_witness :
    cfg_empty_targets.get_targets = [] ∧ cfg_empty_targets.srcset_attr = some "" :=
empty_targets_accepted ((Config.default.set_domain "test.imgix.net").set_path "image.png")
  url_no_params (by decide) (by decide)

/-- C5 counterexample: on a base url without parameters, the generated
variable-quality candidate is base&q=75?dpr=1 followed by the descriptor,
not base?q=75&dpr=1 as claimed: the more segment keeps its ampersand and the
question mark introduces the dpr segment. -/
theorem variable_quality_no_params_cex :
    url_no_params.join = some "https://test.imgix.net/image.png" ∧
    create_variable_quality_set url_no_params [1] .PixelDensity [75] =
      some ["https://test.imgix.net/image.png&q=75?dpr=1 1x"] ∧
    ("https://test.imgix.net/image.png&q=75?dpr=1 1x" : String) ≠
      "https://test.imgix.net/image.png?q=75&dpr=1 1x" := by
decide

/-- C5 amended: the variable-quality pixel-density candidate for ratio r and
quality q is base&q=q&dpr=r space r x when the base url has at least one
parameter (the only case reachable from srcset generation), and
base&q=q?dpr=r space r x when it has none; in both cases the q segment
precedes the dpr segment. -/
theorem candidate_and_variable_quality_format (u : Url) (r q : Nat) (base : String)
    (h : u.join = some base) :
    (u.has_params = true →
      candidate_and u (toString r) .PixelDensity ("&q=" ++ toString q) =
        some (base ++ "&q=" ++ toString q ++ "&dpr=" ++ toString r ++ " " ++
          toString r ++ "x")) ∧
    (u.has_params = false →
      candidate_and u (toString r) .PixelDensity ("&q=" ++ toString q) =
        some (base ++ "&q=" ++ toString q ++ "?dpr=" ++ toString r ++ " " ++
          toString r ++ "x")) := by
have e1 : ("&" ++ "dpr" ++ "=" : String) = "&dpr=" := by decide
have e2 : ("?" ++ "dpr" ++ "=" : String) = "?dpr=" := by decide
constructor
· intro hp
  simp only [candidate_and, descriptor_key, h, hp, ite_true]
  rw [e1]
  simp [String.append_assoc]
· intro hp
  simp only [candidate_and, descriptor_key, h, hp, Bool.false_eq_true, ite_false]
  rw [e2]
  simp [String.append_assoc]

theorem candidate_and_variable_quality_format_witness :
    (url_w320.has_params = true →
      candidate_and url_w320 (toString 2) .PixelDensity ("&q=" ++ toString 50) =
        some ("https://test.imgix.net/image.png?w=320" ++ "&q=" ++ toString 50 ++ "&dpr=" ++
          toString 2 ++ " " ++ toString 2 ++ "x")) ∧
    (url_w320.has_params = false →
      candidate_and url_w320 (toString 2) .PixelDensity ("&q=" ++ toString 50) =
        some ("https://test.imgix.net/image.png?w=320" ++ "&q=" ++ toString 50 ++ "?dpr=" ++
          toString 2 ++ " " ++ toString 2 ++ "x")) :=
candidate_and_variable_quality_format url_w320 2 50
  "https://test.imgix.net/image.png?w=320" (by decide)

theorem head_ne_of_not_mem (c : Char) (l : List Char) (h : c ∉ l) : l.head? ≠ some c := by
cases l with
| nil => simp
| cons a t =>
  intro he
  simp only [List.head?_cons, Option.some_inj] at he
  subst he
  exact h (List.mem_cons_self _ _)

theorem getLast_ne_of_not_mem (c : Char) (l : List Char) (h : c ∉ l) : l.getLast? ≠ some c := by
intro he
obtain ⟨hne, heq⟩ := List.mem_getLast?_eq_getLast (Option.mem_def.mpr he)
exact h (heq ▸ List.getLast_mem hne)

theorem query_string_count_amp (p : List (String × String))
    (h : ∀ kv ∈ p, '&' ∉ kv.1.data ∧ '&' ∉ kv.2.data) :
    (query_string p).data.count '&' = p.length - 1 := by
induction p with
| nil => rfl
| cons kv rest ih =>
  obtain ⟨hk, hv⟩ := h kv (List.mem_cons_self _ _)
  have h' := fun x hx => h x (List.mem_cons_of_mem _ hx)
  obtain ⟨k, v⟩ := kv
  rw [query_string]
  simp only [String.data_append, List.count_append]
  rw [List.count_eq_zero.mpr hk, List.count_eq_zero.mpr hv]
  cases rest with
  | nil => simp [query_string]
  | cons kv2 rest2 =>
    rw [ih h']
    have hamp : (("&" : String).data.count '&') = 1 := by decide
    have heq : (("=" : String).data.count '&') = 0 := by decide
    simp only [List.isEmpty_cons, ite_false, Bool.false_eq_true, hamp, heq, List.length_cons]
    omega

theorem query_string_head (k v : String) (rest : List (String × String)) (hk : k ≠ "") :
    (query_string ((k, v) :: rest)).data.head? = k.data.head? := by
rw [query_string]
simp only [String.data_append, List.append_assoc]
rw [List.head?_append_of_ne_nil _ (data_ne_nil_of_ne _ hk)]

theorem query_string_getLast (p : List (String × String)) (hwf : params_wf p)
    (hne : p ≠ []) :
    ∃ kv ∈ p, (query_string p).data.getLast? = kv.2.data.getLast? := by
induction p with
| nil => exact absurd rfl hne
| cons kv rest ih =>
  obtain ⟨k, v⟩ := kv
  obtain ⟨hk, hv⟩ := hwf _ (List.mem_cons_self _ _)
  have hwf' : params_wf rest := fun x hx => hwf x (List.mem_cons_of_mem _ hx)
  cases rest with
  | nil =>
    refine ⟨(k, v), List.mem_cons_self _ _, ?_⟩
    rw [query_string]
    simp only [String.data_append, List.isEmpty_nil, ite_true,
      show query_string [] = "" from rfl, show ("" : String).data = [] from rfl,
      List.append_nil]
    exact List.getLast?_append_of_ne_nil _ (data_ne_nil_of_ne _ hv)
  | cons kv2 rest2 =>
    obtain ⟨kv', hmem, he⟩ := ih hwf' (List.cons_ne_nil _ _)
    refine ⟨kv', List.mem_cons_of_mem _ hmem, ?_⟩
    obtain ⟨k2, v2⟩ := kv2
    rw [query_string]
    simp only [String.data_append]
    rw [List.getLast?_append_of_ne_nil _
      (data_ne_nil_of_ne _ (query_string_ne_empty k2 v2 rest2))]
    exact he

theorem query_string_empty_iff (p : List (String × String)) :
    query_string p = "" ↔ p = [] := by
cases p with
| nil => simp [query_string]
| cons kv rest =>
  obtain ⟨k, v⟩ := kv
  simp [query_string_ne_empty k v rest]

/-- C8 counterexample: the single pair with key consisting of one ampersand
and value x has non-empty key and value, yet join_params renders ampersand
equals x, which contains one ampersand (the claim predicts zero) and starts
with an ampersand. -/
theorem join_params_ampersand_key_cex :
    (("&", "x") : String × String).1 ≠ "" ∧ (("&", "x") : String × String).2 ≠ "" ∧
    Url.join_params [("&", "x")] = some "&=x" ∧
    ("&=x" : String).data.count '&' = 1 ∧
    ([(("&" : String), ("x" : String))].length - 1 = 0) ∧
    ("&=x" : String).data.head? = some '&' := by
decide

/-- C8 amended: for parameter lists whose keys and values are non-empty and
contain no ampersand character, join_params returns the k=v pairs joined in
insertion order (query_string), the result contains exactly len minus one
ampersands, neither starts nor ends with an ampersand, and is the empty
string exactly when the list is empty. -/
theorem join_params_shape (p : List (String × String))
    (h : ∀ kv ∈ p, kv.1 ≠ "" ∧ kv.2 ≠ "" ∧ '&' ∉ kv.1.data ∧ '&' ∉ kv.2.data) :
    Url.join_params p = some (query_string p) ∧
    (query_string p).data.count '&' = p.length - 1 ∧
    (query_string p).data.head? ≠ some '&' ∧
    (query_string p).data.getLast? ≠ some '&' ∧
    (query_string p = "" ↔ p = []) := by
have hwf : params_wf p := fun kv hkv => ⟨(h kv hkv).1, (h kv hkv).2.1⟩
refine ⟨join_params_eq_query_string p hwf,
  query_string_count_amp p (fun kv hkv => ⟨(h kv hkv).2.2.1, (h kv hkv).2.2.2⟩), ?_, ?_,
  query_string_empty_iff p⟩
· cases p with
  | nil => simp [query_string]
  | cons kv rest =>
    obtain ⟨k, v⟩ := kv
    obtain ⟨hk, _, hkamp, _⟩ := h (k, v) (List.mem_cons_self _ _)
    rw [query_string_head k v rest hk]
    exact head_ne_of_not_mem '&' k.data hkamp
· by_cases hp : p = []
  · rw [hp]; simp [query_string]
  · obtain ⟨kv', hmem, he⟩ := query_string_getLast p hwf hp
    rw [he]
    exact getLast_ne_of_not_mem '&' kv'.2.data (h kv' hmem).2.2.2

theorem join_params_shape_witness :
    Url.join_params [(("w" : String), ("320" : String))] =
      some (query_string [(("w" : String), ("320" : String))]) ∧
    (query_string [(("w" : String), ("320" : String))]).data.count '&' =
      ([(("w" : String), ("320" : String))].length - 1) ∧
    (query_string [(("w" : String), ("320" : String))]).data.head? ≠ some '&' ∧
    (query_string [(("w" : String), ("320" : String))]).data.getLast? ≠ some '&' ∧
    (query_string [(("w" : String), ("320" : String))] = "" ↔
      ([(("w" : String), ("320" : String))] : List (String × String)) = []) :=
join_params_shape [("w", "320")] (by decide)

theorem data_getLast_append (a b : String) (hb : b ≠ "") :
    (a ++ b).data.getLast? = b.data.getLast? := by
rw [String.data_append]
exact List.getLast?_append_of_ne_nil _ (data_ne_nil_of_ne _ hb)

theorem base_getLast (u : Url) (p : String)
    (hpl : p.data.getLast? ≠ some '&' ∧ p.data.getLast? ≠ some '?') :
    (u.scheme.display ++ "://" ++ u.domain ++ "/" ++ p).data.getLast? ≠ some '&' ∧
    (u.scheme.display ++ "://" ++ u.domain ++ "/" ++ p).data.getLast? ≠ some '?' := by
by_cases hpe : p = ""
· subst hpe
  rw [String.append_empty, data_getLast_append _ "/" (by decide)]
  constructor <;> decide
· rw [data_getLast_append _ p hpe]
  exact hpl

theorem query_getLast_ok (ps : List (String × String)) (hwf : params_wf ps) (hne : ps ≠ [])
    (hvl : ∀ kv ∈ ps, kv.2.data.getLast? ≠ some '&' ∧ kv.2.data.getLast? ≠ some '?') :
    (query_string ps).data.getLast? ≠ some '&' ∧
    (query_string ps).data.getLast? ≠ some '?' := by
obtain ⟨kv, hmem, he⟩ := query_string_getLast ps hwf hne
rw [he]
exact hvl kv hmem

/-- C2 counterexample: a Url with its path set and the valid parameter pair
a=b-ampersand, whose join output ends with an ampersand, refuting that the
result never ends with one. -/
theorem join_trailing_ampersand_cex :
    params_wf url_amp_value.params ∧ url_amp_value.path = some "p" ∧
    url_amp_value.join = some "https://d/p?a=b&" ∧
    ("https://d/p?a=b&" : String).data.getLast? = some '&' := by
decide

/-- C2 amended: for every Url with its path set and the params invariant,
join returns the four-case rendering of the spec with query equal to
query_string of the params; and the result ends with neither an ampersand
nor a question mark provided the path, the lib and the parameter values do
not themselves end with one (the renderer appends no trailing separator of
its own). -/
theorem join_four_case_render (u : Url) (p : String) (hp : u.path = some p)
    (hwf : params_wf u.params) :
    u.join = some (spec_join_render u p) ∧
    ((p.data.getLast? ≠ some '&' ∧ p.data.getLast? ≠ some '?') →
     (u.lib.data.getLast? ≠ some '&' ∧ u.lib.data.getLast? ≠ some '?') →
     (∀ kv ∈ u.params, kv.2.data.getLast? ≠ some '&' ∧ kv.2.data.getLast? ≠ some '?') →
     ((spec_join_render u p).data.getLast? ≠ some '&' ∧
      (spec_join_render u p).data.getLast? ≠ some '?')) := by
refine ⟨join_eq_spec_render u p hp hwf, ?_⟩
intro hpl hll hvl
unfold spec_join_render
by_cases hl : u.lib = "" <;> by_cases hpe : u.params = []
· simp only [hl, hpe, ne_eq, not_true_eq_false, not_false_eq_true, ite_true, ite_false]
  exact base_getLast u p hpl
· have hq : query_string u.params ≠ "" := fun hh => hpe ((query_string_empty_iff _).mp hh)
  simp only [hl, hpe, ne_eq, not_true_eq_false, not_false_eq_true, ite_true, ite_false]
  rw [data_getLast_append _ _ hq]
  exact query_getLast_ok u.params hwf hpe hvl
· simp only [hl, hpe, ne_eq, not_true_eq_false, not_false_eq_true, ite_true, ite_false]
  rw [data_getLast_append _ _ hl]
  exact hll
· have hq : query_string u.params ≠ "" := fun hh => hpe ((query_string_empty_iff _).mp hh)
  simp only [hl, hpe, ne_eq, not_true_eq_false, not_false_eq_true, ite_true, ite_false]
  rw [data_getLast_append _ _ hq]
  exact query_getLast_ok u.params hwf hpe hvl

theorem join_four_case_render_witness :
    url_w320.join = some (spec_join_render url_w320 "image.png") ∧
    ((("image.png" : String).data.getLast? ≠ some '&' ∧
      ("image.png" : String).data.getLast? ≠ some '?') →
     (url_w320.lib.data.getLast? ≠ some '&' ∧ url_w320.lib.data.getLast? ≠ some '?') →
     (∀ kv ∈ url_w320.params,
        kv.2.data.getLast? ≠ some '&' ∧ kv.2.data.getLast? ≠ some '?') →
     ((spec_join_render url_w320 "image.png").data.getLast? ≠ some '&' ∧
      (spec_join_render url_w320 "image.png").data.getLast? ≠ some '?')) :=
join_four_case_render url_w320 "image.png" rfl (by decide)

theorem mapM_length {α β : Type} (f : α → Option β) (l : List α)
    (h : ∀ x ∈ l, ∃ y, f x = some y) :
    ∃ l', l.mapM f = some l' ∧ l'.length = l.length := by
induction l with
| nil => exact ⟨[], rfl, rfl⟩
| cons a t ih =>
  obtain ⟨b, hb⟩ := h a (List.mem_cons_self _ _)
  obtain ⟨t', ht, hlen⟩ := ih (fun x hx => h x (List.mem_cons_of_mem _ hx))
  refine ⟨b :: t', ?_, by simp [hlen]⟩
  rw [List.mapM_cons, hb, ht]
  rfl

theorem mapM_mem {α β : Type} (f : α → Option β) (l : List α) (l' : List β)
    (h : l.mapM f = some l') : ∀ b ∈ l', ∃ a ∈ l, f a = some b := by
induction l generalizing l' with
| nil =>
  rw [List.mapM_nil] at h
  cases h
  simp
| cons a t ih =>
  rw [List.mapM_cons] at h
  cases hfa : f a with
  | none => rw [hfa] at h; simp at h
  | some b0 =>
    rw [hfa] at h
    cases hmt : t.mapM f with
    | none => rw [hmt] at h; simp at h
    | some t' =>
      rw [hmt] at h
      simp at h
      subst h
      intro b hb
      rcases List.mem_cons.mp hb with hb | hb
      · exact ⟨a, List.mem_cons_self _ _, by rw [hfa, hb]⟩
      · obtain ⟨x, hx, hfx⟩ := ih t' hmt b hb
        exact ⟨x, List.mem_cons_of_mem _ hx, hfx⟩

theorem candidate_some (u : Url) (v : String) (a : Action) (base : String)
    (hj : u.join = some base) (ha : a ≠ Action.ArtDirection) :
    ∃ s, candidate u v a = some s := by
unfold candidate
cases a with
| ArtDirection => exact absurd rfl ha
| Viewport => rw [hj]; exact ⟨_, rfl⟩
| PixelDensity => rw [hj]; exact ⟨_, rfl⟩

theorem candidate_and_some (u : Url) (v : String) (a : Action) (m : String) (base : String)
    (hj : u.join = some base) (ha : a ≠ Action.ArtDirection) :
    ∃ s, candidate_and u v a m = some s := by
unfold candidate_and
cases a with
| ArtDirection => exact absurd rfl ha
| Viewport => rw [hj]; exact ⟨_, rfl⟩
| PixelDensity => rw [hj]; exact ⟨_, rfl⟩

theorem to_url_url_fields (c : Config) (u : Url) (h : c.to_url = some u) :
    u.scheme = .Https ∧ u.lib = "" ∧ u.token = none ∧
    (∃ p, u.path = some p) ∧ params_wf u.params := by
obtain ⟨d, p, hd, hp, hdne, hpne, hwf, hu⟩ := to_url_some_shape c u h
subst hu
exact ⟨rfl, rfl, rfl, ⟨p, rfl⟩, hwf⟩

theorem to_url_join_some (c : Config) (u : Url) (h : c.to_url = some u) :
    ∃ base, u.join = some base := by
obtain ⟨_, _, _, ⟨p, hp⟩, hwf⟩ := to_url_url_fields c u h
exact ⟨_, join_eq_spec_render u p hp hwf⟩

/-- C4: when the srcset is generated, the candidate count is the length of
targets for a Viewport action, the length of ratios for PixelDensity with
variable quality off, and the minimum of the ratio and quality list lengths
for PixelDensity with variable quality on. -/
theorem build_srcset_counts (c : Config) (u : Url) (h : c.to_url = some u) :
    (infer_action u = .Viewport →
      ∃ l, c.build_srcset = some l ∧ l.length = c.get_targets.length) ∧
    (infer_action u = .PixelDensity → c.get_use_variable_quality = false →
      ∃ l, c.build_srcset = some l ∧ l.length = c.get_ratios.length) ∧
    (infer_action u = .PixelDensity → c.get_use_variable_quality = true →
      ∃ l, c.build_srcset = some l ∧
        l.length = min c.get_ratios.length c.get_qualities.length) := by
obtain ⟨base, hbase⟩ := to_url_join_some c u h
refine ⟨?_, ?_, ?_⟩
· intro ha
  obtain ⟨l, hl, hlen⟩ := mapM_length (fun t => candidate u (toString t) .Viewport)
    c.get_targets (fun t _ => candidate_some u (toString t) .Viewport base hbase (by simp))
  refine ⟨l, ?_, hlen⟩
  unfold Config.build_srcset
  rw [h]
  simp only [ha]
  exact hl
· intro ha hv
  obtain ⟨l, hl, hlen⟩ := mapM_length (fun t => candidate u (toString t) .PixelDensity)
    c.get_ratios (fun t _ => candidate_some u (toString t) .PixelDensity base hbase (by simp))
  refine ⟨l, ?_, hlen⟩
  unfold Config.build_srcset
  rw [h]
  simp only [ha, hv, Bool.false_eq_true, ite_false]
  exact hl
· intro ha hv
  obtain ⟨l, hl, hlen⟩ := mapM_length
    (fun rq => candidate_and u (toString rq.1) .PixelDensity ("&q=" ++ toString rq.2))
    (c.get_ratios.zip c.get_qualities)
    (fun rq _ => candidate_and_some u (toString rq.1) .PixelDensity
      ("&q=" ++ toString rq.2) base hbase (by simp))
  refine ⟨l, ?_, by rw [hlen, List.length_zip]⟩
  unfold Config.build_srcset
  rw [h]
  simp only [ha, hv, ite_true]
  exact hl

theorem build_srcset_counts_witness :
    (infer_action url_w640 = .Viewport →
      ∃ l, cfg_w640.build_srcset = some l ∧ l.length = cfg_w640.get_targets.length) ∧
    (infer_action url_w640 = .PixelDensity → cfg_w640.get_use_variable_quality = false →
      ∃ l, cfg_w640.build_srcset = some l ∧ l.length = cfg_w640.get_ratios.length) ∧
    (infer_action url_w640 = .PixelDensity → cfg_w640.get_use_variable_quality = true →
      ∃ l, cfg_w640.build_srcset = some l ∧
        l.length = min cfg_w640.get_ratios.length cfg_w640.get_qualities.length) :=
build_srcset_counts cfg_w640 url_w640 (by decide)

theorem prefix_append (s r x : String) (h : ∃ t, s = r ++ t) : ∃ t, s ++ x = r ++ t := by
obtain ⟨t, ht⟩ := h
exact ⟨t ++ x, by rw [ht, String.append_assoc]⟩

theorem base_https (u : Url) (p : String) (hs : u.scheme = .Https) :
    ∃ t, u.scheme.display ++ "://" ++ u.domain ++ "/" ++ p = "https://" ++ t := by
rw [hs]
refine prefix_append _ _ _ (prefix_append _ _ _ ⟨u.domain, ?_⟩)
rw [show (Scheme.display .Https ++ "://" : String) = "https://" by decide]

theorem spec_join_render_https (u : Url) (p : String) (hs : u.scheme = .Https) :
    ∃ t, spec_join_render u p = "https://" ++ t := by
unfold spec_join_render
have hb := base_https u p hs
by_cases hl : u.lib = "" <;> by_cases hpe : u.params = [] <;>
  simp only [hl, hpe, ne_eq, not_true_eq_false, not_false_eq_true, ite_true, ite_false]
· exact hb
· exact prefix_append _ _ _ (prefix_append _ _ _ hb)
· exact prefix_append _ _ _ (prefix_append _ _ _ hb)
· exact prefix_append _ _ _ (prefix_append _ _ _ (prefix_append _ _ _ (prefix_append _ _ _ hb)))

theorem candidate_https (u : Url) (v : String) (a : Action) (s : String) (p : String)
    (hp : u.path = some p) (hwf : params_wf u.params) (hs : u.scheme = .Https)
    (hc : candidate u v a = some s) : ∃ t, s = "https://" ++ t := by
have hjoin := join_eq_spec_render u p hp hwf
obtain ⟨t0, ht0⟩ := spec_join_render_https u p hs
unfold candidate at hc
cases a with
| ArtDirection => simp [descriptor_key] at hc
| Viewport =>
  rw [hjoin] at hc
  simp only [descriptor_key, Option.some_inj] at hc
  rw [← hc]
  exact prefix_append _ _ _ (prefix_append _ _ _ (prefix_append _ _ _
    (prefix_append _ _ _ ⟨t0, ht0⟩)))
| PixelDensity =>
  rw [hjoin] at hc
  simp only [descriptor_key, Option.some_inj] at hc
  rw [← hc]
  exact prefix_append _ _ _ (prefix_append _ _ _ (prefix_append _ _ _
    (prefix_append _ _ _ ⟨t0, ht0⟩)))

theorem candidate_and_https (u : Url) (v : String) (a : Action) (m : String) (s : String)
    (p : String) (hp : u.path = some p) (hwf : params_wf u.params) (hs : u.scheme = .Https)
    (hc : candidate_and u v a m = some s) : ∃ t, s = "https://" ++ t := by
have hjoin := join_eq_spec_render u p hp hwf
obtain ⟨t0, ht0⟩ := spec_join_render_https u p hs
unfold candidate_and at hc
cases a with
| ArtDirection => simp [descriptor_key] at hc
| Viewport =>
  rw [hjoin] at hc
  simp only [descriptor_key, Option.some_inj] at hc
  rw [← hc]
  exact prefix_append _ _ _ (prefix_append _ _ _ (prefix_append _ _ _
    (prefix_append _ _ _ (prefix_append _ _ _ ⟨t0, ht0⟩))))
| PixelDensity =>
  rw [hjoin] at hc
  simp only [descriptor_key, Option.some_inj] at hc
  rw [← hc]
  exact prefix_append _ _ _ (prefix_append _ _ _ (prefix_append _ _ _
    (prefix_append _ _ _ (prefix_append _ _ _ ⟨t0, ht0⟩))))

/-- C10: to_url ignores the config's scheme, lib and token overrides: the
materialised url always has scheme Https, an empty lib and no token, and
every generated candidate string begins with https:// even when the config's
scheme is Http. -/
theorem to_url_ignores_scheme_lib_token (c : Config) (u : Url) (h : c.to_url = some u) :
    (u.scheme = .Https ∧ u.lib = "" ∧ u.token = none) ∧
    (∀ l, c.build_srcset = some l → ∀ s ∈ l, ∃ t, s = "https://" ++ t) := by
obtain ⟨hs, hlib, htok, ⟨p, hp⟩, hwf⟩ := to_url_url_fields c u h
refine ⟨⟨hs, hlib, htok⟩, ?_⟩
intro l hl s hsl
unfold Config.build_srcset at hl
rw [h] at hl
simp only at hl
cases ha : infer_action u with
| ArtDirection => rw [ha] at hl; simp at hl
| Viewport =>
  rw [ha] at hl
  simp only at hl
  unfold create_srcset at hl
  obtain ⟨x, _, hfx⟩ := mapM_mem _ _ _ hl s hsl
  exact candidate_https u (toString x) .Viewport s p hp hwf hs hfx
| PixelDensity =>
  rw [ha] at hl
  simp only at hl
  cases hv : c.get_use_variable_quality with
  | true =>
    rw [hv] at hl
    simp only [ite_true] at hl
    unfold create_variable_quality_set at hl
    obtain ⟨x, _, hfx⟩ := mapM_mem _ _ _ hl s hsl
    exact candidate_and_https u (toString x.1) .PixelDensity ("&q=" ++ toString x.2)
      s p hp hwf hs hfx
  | false =>
    rw [hv] at hl
    simp only [Bool.false_eq_true, ite_false] at hl
    unfold create_srcset at hl
    obtain ⟨x, _, hfx⟩ := mapM_mem _ _ _ hl s hsl
    exact candidate_https u (toString x) .PixelDensity s p hp hwf hs hfx

theorem to_url_ignores_scheme_lib_token_witness :
    (url_w640.scheme = .Https ∧ url_w640.lib = "" ∧ url_w640.token = none) ∧
    (∀ l, cfg_http.build_srcset = some l → ∀ s ∈ l, ∃ t, s = "https://" ++ t) :=
to_url_ignores_scheme_lib_token cfg_http url_w640 (by decide)

end Imgix
